import Mathlib

/-!
Verification of the train/test temporal split and feature/target extraction
pipeline of the `Api` facade (src/api.py).

The facade delegates the row-level work to `utilities.getTestTrainSplit`,
`utilities.getFeatureTargetSplit` and `utilities.findMaxEnrolWindow`, whose
source is not part of this tree; those three operations are modelled from the
specification's contracts (marked `Modelled from the spec:` below).  Everything
else — the `Api` instance state, the order of its field assignments, the
`iloc[maxEnrolWindow:].index` slice in `initModels`, and the unqualified name
lookups in `prepareDataframe` — is embedded directly from src/api.py.

Timestamps and cell values are Python ints, embedded as `Int`.  A pandas
DataFrame is embedded as a `Frame`: an ordered list of column names together
with an ordered list of rows, each row carrying its index entry (timestamp)
and one value per column.  Python slicing `xs[n:]` is `List.drop n` (it clips
instead of raising).  A Python call that may raise is `Except ApiError`.
-/

namespace ThesisApi

/-- A row of a time-indexed dataframe: its index entry (timestamp) and its
cell values, one per column of the owning frame. -/
structure DRow where
  ts : Int
  vals : List Int
  deriving DecidableEq

/-- A pandas DataFrame: ordered column names plus time-indexed rows. -/
structure Frame where
  cols : List String
  rows : List DRow
  deriving DecidableEq

/-- A time interval with inclusive bounds, as passed in `traintime` /
`testtime` (a start/end timestamp pair). -/
structure Interval where
  start : Int
  stop : Int
  deriving DecidableEq

/-- Kinds of configuration errors of the pipeline (spec §7). -/
inductive ConfigErrorKind where
  | malformedInterval
  | unknownTargetColumn
  | emptyTargetColumns
  deriving DecidableEq

/-- Errors a pipeline call can raise. -/
inductive ApiError where
  | configurationError (kind : ConfigErrorKind)
  | nameError (missing : String)
  | attributeError (attr : String)
  deriving DecidableEq

/-- A well-formed interval has `start ≤ stop`; `start > stop` is the
malformed case that signals a `ConfigurationError`. -/
def Interval.wellFormed (iv : Interval) : Bool :=
  decide (iv.start ≤ iv.stop)

/-- Whether row `r`'s timestamp lies within the inclusive bounds of `iv`. -/
def Interval.containsTs (iv : Interval) (r : DRow) : Bool :=
  decide (iv.start ≤ r.ts ∧ r.ts ≤ iv.stop)

/-- Select the rows of `rows` whose timestamp lies within the inclusive
bounds of `iv`, preserving their original order.  Bounds outside the actual
timestamp range simply match fewer (possibly zero) rows. -/
def selectRows (iv : Interval) (rows : List DRow) : List DRow :=
  rows.filter iv.containsTs

/-- Concatenate the per-interval selections in interval-list order. -/
def concatSelect (ivs : List Interval) (rows : List DRow) : List DRow :=
  match ivs with
  | [] => []
  | iv :: rest => selectRows iv rows ++ concatSelect rest rows

/-- Modelled from the spec: `utilities.getTestTrainSplit` (src/utils/, not in
this tree).  Contract (spec §4.1): for each interval, select all dataset rows
whose timestamp lies within the inclusive bounds, concatenating selections in
interval-list order for the training side; the test side is one interval.
An interval matching zero rows yields an empty contribution; out-of-range
bounds are implicitly clipped; malformed bounds (start after end) signal a
`ConfigurationError`. -/
def getTestTrainSplit (df : Frame) (traintime : List Interval)
    (testtime : Interval) : Except ApiError (Frame × Frame) :=
  if (traintime.all Interval.wellFormed && testtime.wellFormed) then
    .ok (⟨df.cols, concatSelect traintime df.rows⟩,
         ⟨df.cols, selectRows testtime df.rows⟩)
  else
    .error (.configurationError .malformedInterval)

/-- The feature matrix of one side: all non-target columns, in their original
order, with each row's values restricted correspondingly. -/
def featuresOf (f : Frame) (targetColumns : List String) : Frame :=
  ⟨f.cols.filter (fun c => !targetColumns.contains c),
   f.rows.map (fun r =>
     ⟨r.ts, ((f.cols.zip r.vals).filter
        (fun p => !targetColumns.contains p.1)).map (fun p => p.2)⟩)⟩

/-- The target matrix of one side: exactly the target columns, in the given
order, with each row's values looked up by column name. -/
def targetsOf (f : Frame) (targetColumns : List String) : Frame :=
  ⟨targetColumns,
   f.rows.map (fun r =>
     ⟨r.ts, targetColumns.map
        (fun c => (((f.cols.zip r.vals).lookup c).getD 0))⟩)⟩

/-- Modelled from the spec: `utilities.getFeatureTargetSplit` (src/utils/,
not in this tree).  Contract (spec §4.2): `targetColumns` is a non-empty
sequence of names, each of which must exist among the train (and test)
subset's columns — a mismatch or an empty list signals a
`ConfigurationError`; `y` selects the target columns in the given order and
`X` all remaining columns in their original order, for each side. -/
def getFeatureTargetSplit (df_train df_test : Frame)
    (targetColumns : List String) :
    Except ApiError (Frame × Frame × Frame × Frame) :=
  if targetColumns.isEmpty then
    .error (.configurationError .emptyTargetColumns)
  else if targetColumns.all
      (fun c => df_train.cols.contains c && df_test.cols.contains c) then
    .ok (featuresOf df_train targetColumns, targetsOf df_train targetColumns,
         featuresOf df_test targetColumns, targetsOf df_test targetColumns)
  else
    .error (.configurationError .unknownTargetColumn)

/-- A machine-learning model, reduced to the one attribute the pipeline
reads: its enrollment window (integer ≥ 0, spec §6). -/
structure MlModel where
  enrolWindow : Nat
  deriving DecidableEq

/-- Modelled from the spec: `utilities.findMaxEnrolWindow` (src/utils/, not
in this tree).  Contract (spec §4.3/§6): the maximum `enrolWindow` across all
models of the list. -/
def findMaxEnrolWindow (modelList : List MlModel) : Nat :=
  modelList.foldl (fun acc m => max acc m.enrolWindow) 0

/-- The mutable instance state of the `Api` facade (src/api.py, `__init__`):
the fields the split/extract/init pipeline reads and writes.  Fields that
`__init__` sets to `None` and that the pipeline later assigns are `Option`s;
`df` is kept plain since every claim presupposes a loaded dataframe
(`initDataframe` has run). -/
structure ApiState where
  df : Frame
  traintime : Option (List Interval)
  testtime : Option Interval
  df_train : Option Frame
  df_test : Option Frame
  targetColumns : Option (List String)
  modelList : Option (List MlModel)
  maxEnrolWindow : Option Nat
  indexColumn : Option (List Int)
  deriving DecidableEq

/-- `Api.getTestTrainSplit` (src/api.py lines 112–134): assigns
`self.traintime` and `self.testtime` from the arguments first, then computes
the split and, on success, stores `df_train`/`df_test`.  If the underlying
split raises, the exception propagates after the first two assignments have
already happened, so the state keeps the new times but the old frames. -/
def apiGetTestTrainSplit (st : ApiState) (traintime : List Interval)
    (testtime : Interval) : ApiState × Except ApiError (Frame × Frame) :=
  let st1 := { st with traintime := some traintime, testtime := some testtime }
  match getTestTrainSplit st.df traintime testtime with
  | .ok (df_train, df_test) =>
      ({ st1 with df_train := some df_train, df_test := some df_test },
       .ok (df_train, df_test))
  | .error e => (st1, .error e)

/-- `Api.initModels` (src/api.py lines 183–198): computes
`maxEnrolWindow = utilities.findMaxEnrolWindow(modelList)`, then sets
`indexColumn = self.df_test.iloc[maxEnrolWindow:].index` and stores the model
list.  `iloc[n:]` is Python slicing, so it clips (`List.drop`); `.index` reads
the timestamps.  If `df_test` is still `None`, Python raises an
`AttributeError` on the `.iloc` access. -/
def apiInitModels (st : ApiState) (modelList : List MlModel) :
    Except ApiError ApiState :=
  match st.df_test with
  | none => .error (.attributeError "iloc")
  | some dft =>
      let m := findMaxEnrolWindow modelList
      .ok { st with
              maxEnrolWindow := some m,
              indexColumn := some ((dft.rows.drop m).map DRow.ts),
              modelList := some modelList }

/-- The names bound at module level in src/api.py when its body has run:
the imports (lines 1–19), the two module-level assignments of the path
set-up (lines 4 and 7), the two default-argument dictionaries (lines 21 and
36) and the class itself (line 53). -/
def apiModuleGlobals : List String :=
  ["sys", "os", "ROOT_PATH", "module_path", "plt", "utilities", "metrics",
   "models", "covmat", "printCovMat", "pca", "printExplainedVarianceRatio",
   "pcaPlot", "printReconstructionRow", "default_MLP_args",
   "default_LSTM_args", "Api"]

/-- The local names in scope inside the body of `Api.prepareDataframe`
(src/api.py lines 158–181): its parameters and the tuple target of its first
statement.  A method's class body does not contribute an enclosing scope in
Python, so `getTestTrainSplit` / `getFeatureTargetSplit` are not visible as
bare names here. -/
def prepareDataframeLocals : List String :=
  ["self", "df", "traintime", "testtime", "targetColumns",
   "df_train", "df_test"]

/-- A representative set of Python builtins (none of which is named
`getTestTrainSplit` or `getFeatureTargetSplit`). -/
def pyBuiltins : List String :=
  ["print", "len", "list", "dict", "map", "filter", "zip", "range", "max",
   "min", "abs", "sum", "sorted", "enumerate", "str", "int", "float", "bool",
   "type", "isinstance", "getattr", "setattr", "open", "input", "id", "hash"]

/-- Python name resolution for a bare name inside a function body: local
scope, then module globals, then builtins; an unbound name raises
`NameError`. -/
def pyResolveName (locals : List String) (n : String) : Except ApiError Unit :=
  if locals.contains n || apiModuleGlobals.contains n
      || pyBuiltins.contains n then
    .ok ()
  else
    .error (.nameError n)

/-- `Api.prepareDataframe` (src/api.py lines 158–181): its body invokes the
bare names `getTestTrainSplit` and `getFeatureTargetSplit` (lines 180–181).
Each call first resolves the bare name; had both names resolved, the body
would compose the split and the extraction on the argument dataframe. -/
def apiPrepareDataframe (df : Frame) (traintime : List Interval)
    (testtime : Interval) (targetColumns : List String) :
    Except ApiError (Frame × Frame × Frame × Frame) := do
  let _ ← pyResolveName prepareDataframeLocals "getTestTrainSplit"
  let (df_train, df_test) ← getTestTrainSplit df traintime testtime
  let _ ← pyResolveName prepareDataframeLocals "getFeatureTargetSplit"
  getFeatureTargetSplit df_train df_test targetColumns

/-! ### Helper lemmas -/

theorem le_foldl_max (l : List Nat) (a : Nat) : a ≤ l.foldl max a := by
  induction l generalizing a with
  | nil => exact Nat.le_refl a
  | cons x rest ih =>
      exact Nat.le_trans (Nat.le_max_left a x) (ih (max a x))

theorem mem_le_foldl_max (l : List Nat) (a x : Nat) (hx : x ∈ l) :
    x ≤ l.foldl max a := by
  induction l generalizing a with
  | nil => cases hx
  | cons y rest ih =>
      rcases List.mem_cons.mp hx with h | h
      · subst h
        exact Nat.le_trans (Nat.le_max_right a x) (le_foldl_max rest (max a x))
      · exact ih (max a y) h

theorem foldl_max_eq_or_mem (l : List Nat) (a : Nat) :
    l.foldl max a = a ∨ l.foldl max a ∈ l := by
  induction l generalizing a with
  | nil => exact Or.inl rfl
  | cons x rest ih =>
      rcases ih (max a x) with h | h
      · rcases max_choice a x with hc | hc
        · exact Or.inl (by rw [List.foldl_cons, h, hc])
        · exact Or.inr (by rw [List.foldl_cons, h, hc]; exact List.mem_cons_self _ _)
      · exact Or.inr (by rw [List.foldl_cons]; exact List.mem_cons_of_mem _ h)

theorem findMaxEnrolWindow_eq_foldl (l : List MlModel) :
    findMaxEnrolWindow l = (l.map MlModel.enrolWindow).foldl max 0 := by
  unfold findMaxEnrolWindow
  rw [List.foldl_map]

theorem enrol_le_findMaxEnrolWindow (l : List MlModel) (m : MlModel)
    (hm : m ∈ l) : m.enrolWindow ≤ findMaxEnrolWindow l := by
  rw [findMaxEnrolWindow_eq_foldl]
  exact mem_le_foldl_max _ 0 _ (List.mem_map_of_mem _ hm)

theorem findMaxEnrolWindow_mem (l : List MlModel) (hne : l ≠ []) :
    findMaxEnrolWindow l ∈ l.map MlModel.enrolWindow := by
  rw [findMaxEnrolWindow_eq_foldl]
  rcases foldl_max_eq_or_mem (l.map MlModel.enrolWindow) 0 with h | h
  · cases l with
    | nil => exact absurd rfl hne
    | cons x rest =>
        have hx : x.enrolWindow ≤ ((x :: rest).map MlModel.enrolWindow).foldl max 0 :=
          mem_le_foldl_max _ 0 _ (by simp)
        rw [h] at hx ⊢
        have hx0 : x.enrolWindow = 0 := Nat.le_zero.mp hx
        exact List.mem_map.mpr ⟨x, List.mem_cons_self _ _, hx0⟩
  · exact h

/-! ### Claim theorems -/

/-- C8.  For every input, `Api.prepareDataframe` fails with a `NameError`
for the unqualified name `getTestTrainSplit`, which is bound neither in the
method's local scope, nor at module level in api.py, nor among the builtins;
it never returns a value. -/
theorem prepareDataframe_nameError (df : Frame) (traintime : List Interval)
    (testtime : Interval) (targetColumns : List String) :
    apiPrepareDataframe df traintime testtime targetColumns
      = .error (.nameError "getTestTrainSplit") := by
  rfl

/-- C10.  When the maximum enrollment window over the model list is at least
the test subset's row count, `Api.initModels` still returns normally and
stores an empty `indexColumn`: Python slicing `iloc[m:]` clips past the end
and yields no rows. -/
theorem initModels_oversized_window_empty_index (st : ApiState)
    (modelList : List MlModel) (dft : Frame) (hdf : st.df_test = some dft)
    (hlen : dft.rows.length ≤ findMaxEnrolWindow modelList) :
    ∃ st', apiInitModels st modelList = .ok st' ∧ st'.indexColumn = some [] := by
  refine ⟨_, by rw [apiInitModels, hdf], ?_⟩
  show some ((dft.rows.drop (findMaxEnrolWindow modelList)).map DRow.ts)
      = some ([] : List Int)
  rw [List.drop_eq_nil_of_le hlen]
  rfl

/-- Witness for C10: a one-row test subset and a single model with
enrollment window 2. -/
theorem initModels_oversized_window_empty_index_witness :
    ∃ st', apiInitModels
        ⟨⟨["v"], [⟨0, [10]⟩]⟩, none, none, none, some ⟨["v"], [⟨0, [10]⟩]⟩,
         none, none, none, none⟩ [⟨2⟩] = .ok st' ∧ st'.indexColumn = some [] :=
  initModels_oversized_window_empty_index _ [⟨2⟩] ⟨["v"], [⟨0, [10]⟩]⟩ rfl
    (by decide)

/-- C9.  `Api.getTestTrainSplit` assigns `self.traintime` and
`self.testtime` before computing the split, so when the underlying split
raises, the returned state already holds the new time arguments while
`df_train` and `df_test` keep their previous values, and the error
propagates unchanged: the method is not atomic on error. -/
theorem getTestTrainSplit_nonatomic_on_error (st : ApiState)
    (traintime : List Interval) (testtime : Interval) (e : ApiError)
    (herr : getTestTrainSplit st.df traintime testtime = .error e) :
    (apiGetTestTrainSplit st traintime testtime).1.traintime = some traintime ∧
    (apiGetTestTrainSplit st traintime testtime).1.testtime = some testtime ∧
    (apiGetTestTrainSplit st traintime testtime).1.df_train = st.df_train ∧
    (apiGetTestTrainSplit st traintime testtime).1.df_test = st.df_test ∧
    (apiGetTestTrainSplit st traintime testtime).2 = .error e := by
  unfold apiGetTestTrainSplit
  rw [herr]
  exact ⟨rfl, rfl, rfl, rfl, rfl⟩

/-- Witness for C9: a malformed training interval makes the split raise; the
state keeps the new times and the old (absent) frames. -/
theorem getTestTrainSplit_nonatomic_on_error_witness :
    (apiGetTestTrainSplit ⟨⟨["v"], [⟨0, [10]⟩]⟩, none, none, none, none, none,
        none, none, none⟩ [⟨5, 3⟩] ⟨0, 9⟩).1.traintime = some [⟨5, 3⟩] ∧
    (apiGetTestTrainSplit ⟨⟨["v"], [⟨0, [10]⟩]⟩, none, none, none, none, none,
        none, none, none⟩ [⟨5, 3⟩] ⟨0, 9⟩).1.testtime = some ⟨0, 9⟩ ∧
    (apiGetTestTrainSplit ⟨⟨["v"], [⟨0, [10]⟩]⟩, none, none, none, none, none,
        none, none, none⟩ [⟨5, 3⟩] ⟨0, 9⟩).1.df_train = none ∧
    (apiGetTestTrainSplit ⟨⟨["v"], [⟨0, [10]⟩]⟩, none, none, none, none, none,
        none, none, none⟩ [⟨5, 3⟩] ⟨0, 9⟩).1.df_test = none ∧
    (apiGetTestTrainSplit ⟨⟨["v"], [⟨0, [10]⟩]⟩, none, none, none, none, none,
        none, none, none⟩ [⟨5, 3⟩] ⟨0, 9⟩).2
      = .error (.configurationError .malformedInterval) :=
  getTestTrainSplit_nonatomic_on_error _ [⟨5, 3⟩] ⟨0, 9⟩
    (.configurationError .malformedInterval) rfl

/-- C5.  If any interval passed to the temporal split has malformed bounds
(start after end) — in the training list or as the test interval — the split
signals a `ConfigurationError` instead of returning a result. -/
theorem split_malformed_interval_error (df : Frame) (traintime : List Interval)
    (testtime : Interval)
    (h : (∃ iv ∈ traintime, iv.stop < iv.start) ∨ testtime.stop < testtime.start) :
    getTestTrainSplit df traintime testtime
      = .error (.configurationError .malformedInterval) := by
  unfold getTestTrainSplit
  have hfalse : (traintime.all Interval.wellFormed && testtime.wellFormed) = false := by
    rcases h with ⟨iv, hmem, hlt⟩ | hlt
    · have hall : traintime.all Interval.wellFormed = false := by
        rw [List.all_eq_false]
        refine ⟨iv, hmem, ?_⟩
        simp only [Interval.wellFormed, decide_eq_true_eq]
        omega
      rw [hall, Bool.false_and]
    · have hwf : testtime.wellFormed = false := by
        simp only [Interval.wellFormed, decide_eq_false_iff_not]
        omega
      rw [hwf, Bool.and_false]
  rw [hfalse]
  rfl

/-- Witness for C5: the malformed training interval (5, 3). -/
theorem split_malformed_interval_error_witness :
    getTestTrainSplit ⟨["v"], [⟨0, [10]⟩]⟩ [⟨5, 3⟩] ⟨0, 9⟩
      = .error (.configurationError .malformedInterval) :=
  split_malformed_interval_error _ [⟨5, 3⟩] ⟨0, 9⟩
    (Or.inl ⟨⟨5, 3⟩, by decide, by decide⟩)

theorem getTestTrainSplit_ok (df : Frame) (traintime : List Interval)
    (testtime : Interval) (htr : ∀ iv ∈ traintime, iv.start ≤ iv.stop)
    (hte : testtime.start ≤ testtime.stop) :
    getTestTrainSplit df traintime testtime
      = .ok (⟨df.cols, concatSelect traintime df.rows⟩,
             ⟨df.cols, selectRows testtime df.rows⟩) := by
  unfold getTestTrainSplit
  have htrue : (traintime.all Interval.wellFormed && testtime.wellFormed) = true := by
    simp only [Bool.and_eq_true, List.all_eq_true]
    exact ⟨fun iv hm => by
        simp only [Interval.wellFormed, decide_eq_true_eq]; exact htr iv hm,
      by simp only [Interval.wellFormed, decide_eq_true_eq]; exact hte⟩
  rw [htrue]
  rfl

/-- C6.  For every dataset and well-formed intervals, the temporal split
succeeds: an interval matching zero rows contributes an empty selection and
bounds outside the dataset's timestamp range are implicitly clipped by the
selection, so no error is raised. -/
theorem split_wellFormed_ok (df : Frame) (traintime : List Interval)
    (testtime : Interval) (htr : ∀ iv ∈ traintime, iv.start ≤ iv.stop)
    (hte : testtime.start ≤ testtime.stop) :
    getTestTrainSplit df traintime testtime
      = .ok (⟨df.cols, concatSelect traintime df.rows⟩,
             ⟨df.cols, selectRows testtime df.rows⟩) :=
  getTestTrainSplit_ok df traintime testtime htr hte

/-- Witness for C6: a training interval entirely outside the data's range
(zero matching rows) and a test interval whose bounds overshoot both ends of
the range; the split still succeeds. -/
theorem split_wellFormed_ok_witness :
    getTestTrainSplit ⟨["v"], [⟨1, [10]⟩, ⟨2, [20]⟩]⟩ [⟨10, 20⟩] ⟨-5, 50⟩
      = .ok (⟨["v"], concatSelect [⟨10, 20⟩] [⟨1, [10]⟩, ⟨2, [20]⟩]⟩,
             ⟨["v"], selectRows ⟨-5, 50⟩ [⟨1, [10]⟩, ⟨2, [20]⟩]⟩) :=
  split_wellFormed_ok ⟨["v"], [⟨1, [10]⟩, ⟨2, [20]⟩]⟩ [⟨10, 20⟩] ⟨-5, 50⟩
    (by decide) (by decide)

/-- C1, counterexample.  With a one-row test subset and a single model whose
enrollment window is 2 (the LSTM constructors accept any such window),
`initModels` succeeds, but the stored `indexColumn` has length 0 while the
claimed `row count − maxEnrolWindow` is 1 − 2 = −1 over the Python integers:
the length clause of the claim fails, so the claimed conjunction fails. -/
theorem initModels_indexColumn_length_counterexample :
    ∃ st', apiInitModels ⟨⟨["v"], [⟨0, [10]⟩]⟩, none, none, none,
        some ⟨["v"], [⟨0, [10]⟩]⟩, none, none, none, none⟩ [⟨2⟩] = .ok st' ∧
      ¬ (((st'.indexColumn.getD []).length : Int)
          = (((⟨["v"], [⟨0, [10]⟩]⟩ : Frame).rows.length : Int)
              - (findMaxEnrolWindow [⟨2⟩] : Int))) := by
  refine ⟨_, rfl, ?_⟩
  decide

/-- C1 (amended).  After `initModels`, the stored `maxEnrolWindow` is the
maximum enrollment window over the (non-empty) model list, and the stored
`indexColumn` is the tail slice of the test subset's timestamp index starting
at offset `maxEnrolWindow`; provided `maxEnrolWindow` does not exceed the
test subset's row count, its length is the row count minus `maxEnrolWindow`
(without that proviso the slice clips and `indexColumn` is empty). -/
theorem initModels_indexColumn_alignment (st : ApiState)
    (modelList : List MlModel) (dft : Frame) (hdf : st.df_test = some dft)
    (hne : modelList ≠ [])
    (hwin : findMaxEnrolWindow modelList ≤ dft.rows.length) :
    ∃ st', apiInitModels st modelList = .ok st' ∧
      st'.maxEnrolWindow = some (findMaxEnrolWindow modelList) ∧
      (∀ m ∈ modelList, m.enrolWindow ≤ findMaxEnrolWindow modelList) ∧
      findMaxEnrolWindow modelList ∈ modelList.map MlModel.enrolWindow ∧
      st'.indexColumn
        = some ((dft.rows.map DRow.ts).drop (findMaxEnrolWindow modelList)) ∧
      ((st'.indexColumn.getD []).length : Int)
        = (dft.rows.length : Int) - (findMaxEnrolWindow modelList : Int) := by
  refine ⟨_, by rw [apiInitModels, hdf], rfl,
    fun m hm => enrol_le_findMaxEnrolWindow _ m hm,
    findMaxEnrolWindow_mem _ hne, ?_, ?_⟩
  · show some ((dft.rows.drop (findMaxEnrolWindow modelList)).map DRow.ts)
        = some ((dft.rows.map DRow.ts).drop (findMaxEnrolWindow modelList))
    rw [List.map_drop]
  · show (((dft.rows.drop (findMaxEnrolWindow modelList)).map DRow.ts).length : Int)
        = (dft.rows.length : Int) - (findMaxEnrolWindow modelList : Int)
    rw [List.length_map, List.length_drop]
    omega

/-- Witness for the amended C1: a three-row test subset and two models with
enrollment windows 0 and 2. -/
theorem initModels_indexColumn_alignment_witness :
    ∃ st', apiInitModels
        ⟨⟨["v"], [⟨0, [10]⟩, ⟨1, [11]⟩, ⟨2, [12]⟩]⟩, none, none, none,
         some ⟨["v"], [⟨0, [10]⟩, ⟨1, [11]⟩, ⟨2, [12]⟩]⟩,
         none, none, none, none⟩ [⟨0⟩, ⟨2⟩] = .ok st' ∧
      st'.maxEnrolWindow = some (findMaxEnrolWindow [⟨0⟩, ⟨2⟩]) ∧
      (∀ m ∈ [(⟨0⟩ : MlModel), ⟨2⟩],
        m.enrolWindow ≤ findMaxEnrolWindow [⟨0⟩, ⟨2⟩]) ∧
      findMaxEnrolWindow [⟨0⟩, ⟨2⟩]
        ∈ [(⟨0⟩ : MlModel), ⟨2⟩].map MlModel.enrolWindow ∧
      st'.indexColumn
        = some ((([⟨0, [10]⟩, ⟨1, [11]⟩, ⟨2, [12]⟩] : List DRow).map DRow.ts).drop
            (findMaxEnrolWindow [⟨0⟩, ⟨2⟩])) ∧
      ((st'.indexColumn.getD []).length : Int)
        = ((([⟨0, [10]⟩, ⟨1, [11]⟩, ⟨2, [12]⟩] : List DRow)).length : Int)
            - (findMaxEnrolWindow [⟨0⟩, ⟨2⟩] : Int) :=
  initModels_indexColumn_alignment _ [⟨0⟩, ⟨2⟩]
    ⟨["v"], [⟨0, [10]⟩, ⟨1, [11]⟩, ⟨2, [12]⟩]⟩ rfl (by decide) (by decide)

/-- C4.  Calling the feature/target extraction with a target-column list
containing a name that is not among the train subset's columns yields the
`ConfigurationError` for an unknown target column, returned as the call's
immediate result (so it propagates to the caller unchanged). -/
theorem featureTargetSplit_unknown_target_error (df_train df_test : Frame)
    (targetColumns : List String) (c : String) (hc : c ∈ targetColumns)
    (hnot : c ∉ df_train.cols) :
    getFeatureTargetSplit df_train df_test targetColumns
      = .error (.configurationError .unknownTargetColumn) := by
  unfold getFeatureTargetSplit
  have hne : targetColumns.isEmpty = false := by
    cases targetColumns with
    | nil => cases hc
    | cons x rest => rfl
  have hall : targetColumns.all
      (fun c => df_train.cols.contains c && df_test.cols.contains c) = false := by
    rw [List.all_eq_false]
    refine ⟨c, hc, ?_⟩
    intro h
    rw [Bool.and_eq_true] at h
    exact hnot (by simpa using h.1)
  rw [hne, hall]
  rfl

/-- Witness for C4: requesting the target column "nonexistent_column" from a
one-column subset. -/
theorem featureTargetSplit_unknown_target_error_witness :
    getFeatureTargetSplit ⟨["v"], [⟨0, [10]⟩]⟩ ⟨["v"], [⟨0, [10]⟩]⟩
        ["nonexistent_column"]
      = .error (.configurationError .unknownTargetColumn) :=
  featureTargetSplit_unknown_target_error ⟨["v"], [⟨0, [10]⟩]⟩
    ⟨["v"], [⟨0, [10]⟩]⟩ ["nonexistent_column"] "nonexistent_column"
    (by decide) (by decide)

theorem filter_not_contains_union (cols tc : List String)
    (hsub : ∀ c ∈ tc, c ∈ cols) (c : String) :
    (c ∈ cols.filter (fun x => !tc.contains x) ∨ c ∈ tc) ↔ c ∈ cols := by
  constructor
  · rintro (h | h)
    · exact (List.mem_filter.mp h).1
    · exact hsub c h
  · intro h
    by_cases htc : c ∈ tc
    · exact Or.inr htc
    · refine Or.inl (List.mem_filter.mpr ⟨h, ?_⟩)
      simpa using htc

theorem filter_not_contains_disjoint (cols tc : List String) (c : String) :
    ¬ (c ∈ cols.filter (fun x => !tc.contains x) ∧ c ∈ tc) := by
  rintro ⟨h1, h2⟩
  have h3 := (List.mem_filter.mp h1).2
  simp only [Bool.not_eq_true'] at h3
  exact absurd (by simpa using h2) (by simpa using h3)

theorem filter_not_contains_length (cols tc : List String) (hc : cols.Nodup)
    (ht : tc.Nodup) (hsub : ∀ c ∈ tc, c ∈ cols) :
    (cols.filter (fun x => !tc.contains x)).length = cols.length - tc.length := by
  have hp : List.Perm (cols.filter (fun x => tc.contains x)) tc :=
    (List.perm_ext_iff_of_nodup (hc.filter _) ht).mpr (fun a => by
      simp only [List.mem_filter]
      constructor
      · rintro ⟨-, h⟩
        simpa using h
      · intro h
        exact ⟨hsub a h, by simpa using h⟩)
  have hsplit : List.Perm
      (cols.filter (fun x => tc.contains x) ++ cols.filter (fun x => !tc.contains x))
      cols := List.filter_append_perm _ _
  have h1 := hp.length_eq
  have h2 := hsplit.length_eq
  rw [List.length_append] at h2
  omega

/-- C2.  For valid target columns (non-empty, no duplicates, all present in
both subsets with duplicate-free column sets), the extraction succeeds and on
each side the columns of `X` and `y` partition the subset's columns: their
union is the subset's column set and their intersection is empty, `X` keeps
the non-target columns in original order (count = total − |targets|), `y` is
exactly the target columns in the given order, and both keep the side's row
count. -/
theorem featureTargetSplit_partition (df_train df_test : Frame)
    (targetColumns : List String) (hne : targetColumns ≠ [])
    (htr : ∀ c ∈ targetColumns, c ∈ df_train.cols)
    (hte : ∀ c ∈ targetColumns, c ∈ df_test.cols)
    (hctr : df_train.cols.Nodup) (hcte : df_test.cols.Nodup)
    (htc : targetColumns.Nodup) :
    ∃ Xtr ytr Xte yte,
      getFeatureTargetSplit df_train df_test targetColumns
        = .ok (Xtr, ytr, Xte, yte) ∧
      Xtr.cols = df_train.cols.filter (fun c => !targetColumns.contains c) ∧
      ytr.cols = targetColumns ∧
      (∀ c, (c ∈ Xtr.cols ∨ c ∈ ytr.cols) ↔ c ∈ df_train.cols) ∧
      (∀ c, ¬ (c ∈ Xtr.cols ∧ c ∈ ytr.cols)) ∧
      Xtr.cols.length = df_train.cols.length - targetColumns.length ∧
      ytr.cols.length = targetColumns.length ∧
      Xtr.rows.length = df_train.rows.length ∧
      ytr.rows.length = df_train.rows.length ∧
      Xte.cols = df_test.cols.filter (fun c => !targetColumns.contains c) ∧
      yte.cols = targetColumns ∧
      (∀ c, (c ∈ Xte.cols ∨ c ∈ yte.cols) ↔ c ∈ df_test.cols) ∧
      (∀ c, ¬ (c ∈ Xte.cols ∧ c ∈ yte.cols)) ∧
      Xte.cols.length = df_test.cols.length - targetColumns.length ∧
      yte.cols.length = targetColumns.length ∧
      Xte.rows.length = df_test.rows.length ∧
      yte.rows.length = df_test.rows.length := by
  have hempty : targetColumns.isEmpty = false := by
    cases targetColumns with
    | nil => exact absurd rfl hne
    | cons x rest => rfl
  have hall : targetColumns.all
      (fun c => df_train.cols.contains c && df_test.cols.contains c) = true := by
    rw [List.all_eq_true]
    intro c hc
    rw [Bool.and_eq_true]
    exact ⟨by simpa using htr c hc, by simpa using hte c hc⟩
  refine ⟨featuresOf df_train targetColumns, targetsOf df_train targetColumns,
    featuresOf df_test targetColumns, targetsOf df_test targetColumns,
    ?_, rfl, rfl, ?_, ?_, ?_, rfl, ?_, ?_, rfl, rfl, ?_, ?_, ?_, rfl, ?_, ?_⟩
  · unfold getFeatureTargetSplit
    rw [hempty, hall]
    rfl
  · exact filter_not_contains_union df_train.cols targetColumns htr
  · exact filter_not_contains_disjoint df_train.cols targetColumns
  · exact filter_not_contains_length df_train.cols targetColumns hctr htc htr
  · simp [featuresOf]
  · simp [targetsOf]
  · exact filter_not_contains_union df_test.cols targetColumns hte
  · exact filter_not_contains_disjoint df_test.cols targetColumns
  · exact filter_not_contains_length df_test.cols targetColumns hcte htc hte
  · simp [featuresOf]
  · simp [targetsOf]

/-- Witness for C2: a two-column dataset (`v`, `w`) on both sides with target
columns `["w"]`. -/
theorem featureTargetSplit_partition_witness :
    ∃ Xtr ytr Xte yte,
      getFeatureTargetSplit ⟨["v", "w"], [⟨0, [1, 2]⟩, ⟨1, [3, 4]⟩]⟩
          ⟨["v", "w"], [⟨2, [5, 6]⟩]⟩ ["w"] = .ok (Xtr, ytr, Xte, yte) ∧
      Xtr.cols = ((["v", "w"] : List String).filter (fun c => !(["w"] : List String).contains c)) ∧
      ytr.cols = ["w"] ∧
      (∀ c, (c ∈ Xtr.cols ∨ c ∈ ytr.cols) ↔ c ∈ ["v", "w"]) ∧
      (∀ c, ¬ (c ∈ Xtr.cols ∧ c ∈ ytr.cols)) ∧
      Xtr.cols.length = (["v", "w"] : List String).length - (["w"] : List String).length ∧
      ytr.cols.length = (["w"] : List String).length ∧
      Xtr.rows.length = ([⟨0, [1, 2]⟩, ⟨1, [3, 4]⟩] : List DRow).length ∧
      ytr.rows.length = ([⟨0, [1, 2]⟩, ⟨1, [3, 4]⟩] : List DRow).length ∧
      Xte.cols = ((["v", "w"] : List String).filter (fun c => !(["w"] : List String).contains c)) ∧
      yte.cols = ["w"] ∧
      (∀ c, (c ∈ Xte.cols ∨ c ∈ yte.cols) ↔ c ∈ ["v", "w"]) ∧
      (∀ c, ¬ (c ∈ Xte.cols ∧ c ∈ yte.cols)) ∧
      Xte.cols.length = (["v", "w"] : List String).length - (["w"] : List String).length ∧
      yte.cols.length = (["w"] : List String).length ∧
      Xte.rows.length = ([⟨2, [5, 6]⟩] : List DRow).length ∧
      yte.rows.length = ([⟨2, [5, 6]⟩] : List DRow).length :=
  featureTargetSplit_partition ⟨["v", "w"], [⟨0, [1, 2]⟩, ⟨1, [3, 4]⟩]⟩
    ⟨["v", "w"], [⟨2, [5, 6]⟩]⟩ ["w"] (by decide)
    (by decide) (by decide) (by decide) (by decide) (by decide)

theorem sorted_cut (c : Int) (rows : List DRow)
    (hs : rows.Pairwise (fun a b => a.ts ≤ b.ts)) :
    ∃ A B, rows = A ++ B ∧ (∀ r ∈ A, r.ts ≤ c) ∧ (∀ r ∈ B, c < r.ts) := by
  induction rows with
  | nil => exact ⟨[], [], rfl, by simp, by simp⟩
  | cons r rest ih =>
      rcases List.pairwise_cons.mp hs with ⟨hr, hrest⟩
      by_cases hrc : r.ts ≤ c
      · rcases ih hrest with ⟨A, B, hAB, hA, hB⟩
        refine ⟨r :: A, B, by rw [List.cons_append, ← hAB], ?_, hB⟩
        intro x hx
        rcases List.mem_cons.mp hx with h | h
        · rw [h]; exact hrc
        · exact hA x h
      · push_neg at hrc
        refine ⟨[], r :: rest, rfl, by simp, ?_⟩
        intro x hx
        rcases List.mem_cons.mp hx with h | h
        · rw [h]; exact hrc
        · exact lt_of_lt_of_le hrc (hr x h)

theorem concatSelect_skip_left (ivs : List Interval) (A B : List DRow)
    (h : ∀ iv ∈ ivs, ∀ r ∈ A, iv.containsTs r = false) :
    concatSelect ivs (A ++ B) = concatSelect ivs B := by
  induction ivs with
  | nil => rfl
  | cons iv rest ih =>
      show selectRows iv (A ++ B) ++ concatSelect rest (A ++ B)
          = selectRows iv B ++ concatSelect rest B
      have hAnil : A.filter iv.containsTs = [] :=
        List.filter_eq_nil_iff.mpr (fun r hr => by
          rw [h iv (List.mem_cons_self _ _) r hr]
          exact Bool.false_ne_true)
      rw [selectRows, selectRows, List.filter_append, hAnil, List.nil_append,
        ih (fun iv' h' => h iv' (List.mem_cons_of_mem _ h'))]

theorem concatSelect_cover (ivs : List Interval) :
    ∀ rows : List DRow, rows.Pairwise (fun a b => a.ts ≤ b.ts) →
      ivs.Pairwise (fun a b => a.stop < b.start) →
      (∀ r ∈ rows, ∃ iv ∈ ivs, iv.start ≤ r.ts ∧ r.ts ≤ iv.stop) →
      concatSelect ivs rows = rows := by
  induction ivs with
  | nil =>
      intro rows _ _ hcov
      cases rows with
      | nil => rfl
      | cons r rest =>
          rcases hcov r (List.mem_cons_self _ _) with ⟨iv, hmem, -⟩
          cases hmem
  | cons iv rest ih =>
      intro rows hs hord hcov
      obtain ⟨A, B, hAB, hA, hB⟩ := sorted_cut iv.stop rows hs
      subst hAB
      obtain ⟨hsA, hsB, hcross⟩ := List.pairwise_append.mp hs
      rcases List.pairwise_cons.mp hord with ⟨hiv, hordrest⟩
      have hAsel : selectRows iv (A ++ B) = A := by
        rw [selectRows, List.filter_append]
        have hBnil : B.filter iv.containsTs = [] :=
          List.filter_eq_nil_iff.mpr (fun r hr => by
            simp only [Interval.containsTs, decide_eq_true_eq]
            rintro ⟨-, h2⟩
            exact absurd h2 (not_le.mpr (hB r hr)))
        have hAall : A.filter iv.containsTs = A :=
          List.filter_eq_self.mpr (fun r hr => by
            rcases hcov r (List.mem_append_left B hr) with ⟨iv₀, hmem₀, h₀s, h₀e⟩
            rcases List.mem_cons.mp hmem₀ with h | h
            · subst h
              simp only [Interval.containsTs, decide_eq_true_eq]
              exact ⟨h₀s, h₀e⟩
            · exact absurd h₀s
                (not_le.mpr (lt_of_le_of_lt (hA r hr) (hiv iv₀ h))))
        rw [hBnil, hAall, List.append_nil]
      have hskip : concatSelect rest (A ++ B) = concatSelect rest B :=
        concatSelect_skip_left rest A B (fun iv' h' r hr => by
          simp only [Interval.containsTs, decide_eq_false_iff_not]
          rintro ⟨h1, -⟩
          exact absurd h1 (not_le.mpr (lt_of_le_of_lt (hA r hr) (hiv iv' h'))))
      have hcovB : ∀ r ∈ B, ∃ iv₀ ∈ rest, iv₀.start ≤ r.ts ∧ r.ts ≤ iv₀.stop := by
        intro r hr
        rcases hcov r (List.mem_append_right A hr) with ⟨iv₀, hmem₀, h₀s, h₀e⟩
        rcases List.mem_cons.mp hmem₀ with h | h
        · subst h
          exact absurd h₀e (not_le.mpr (hB r hr))
        · exact ⟨iv₀, h, h₀s, h₀e⟩
      show selectRows iv (A ++ B) ++ concatSelect rest (A ++ B) = A ++ B
      rw [hAsel, hskip, ih B hsB hordrest hcovB]

theorem concatSelect_append (l₁ l₂ : List Interval) (rows : List DRow) :
    concatSelect (l₁ ++ l₂) rows
      = concatSelect l₁ rows ++ concatSelect l₂ rows := by
  induction l₁ with
  | nil => rfl
  | cons iv rest ih =>
      show selectRows iv rows ++ concatSelect (rest ++ l₂) rows
          = (selectRows iv rows ++ concatSelect rest rows) ++ concatSelect l₂ rows
      rw [ih, List.append_assoc]

/-- C3.  For a time-ordered dataset and an interval sequence
(`traintime` followed by `testtime`) that exactly covers it with no overlap —
the intervals are pairwise disjoint in list order and every row's timestamp
falls in one of them — the split succeeds and recombining the subsets
(train rows followed by test rows) is a row-for-row match of the dataset
with the original order preserved. -/
theorem split_recombination (df : Frame) (traintime : List Interval)
    (testtime : Interval)
    (hs : df.rows.Pairwise (fun a b => a.ts ≤ b.ts))
    (hwf : ∀ iv ∈ traintime ++ [testtime], iv.start ≤ iv.stop)
    (hord : (traintime ++ [testtime]).Pairwise (fun a b => a.stop < b.start))
    (hcov : ∀ r ∈ df.rows,
      ∃ iv ∈ traintime ++ [testtime], iv.start ≤ r.ts ∧ r.ts ≤ iv.stop) :
    ∃ tr te, getTestTrainSplit df traintime testtime = .ok (tr, te) ∧
      tr.cols = df.cols ∧ te.cols = df.cols ∧ tr.rows ++ te.rows = df.rows := by
  have hok := getTestTrainSplit_ok df traintime testtime
    (fun iv h => hwf iv (List.mem_append_left _ h))
    (hwf testtime (List.mem_append_right _ (List.mem_cons_self _ _)))
  refine ⟨_, _, hok, rfl, rfl, ?_⟩
  have hall : concatSelect (traintime ++ [testtime]) df.rows = df.rows :=
    concatSelect_cover _ df.rows hs hord hcov
  rw [concatSelect_append] at hall
  have h2 : concatSelect [testtime] df.rows = selectRows testtime df.rows := by
    show selectRows testtime df.rows ++ concatSelect [] df.rows
        = selectRows testtime df.rows
    show selectRows testtime df.rows ++ [] = selectRows testtime df.rows
    rw [List.append_nil]
  rw [h2] at hall
  exact hall

/-- Witness for C3: four rows with timestamps 0–3, training interval (0, 1)
and test interval (2, 5); the two subsets concatenate back to the dataset. -/
theorem split_recombination_witness :
    ∃ tr te, getTestTrainSplit
        ⟨["v"], [⟨0, [10]⟩, ⟨1, [11]⟩, ⟨2, [12]⟩, ⟨3, [13]⟩]⟩ [⟨0, 1⟩] ⟨2, 5⟩
        = .ok (tr, te) ∧
      tr.cols = (⟨["v"], [⟨0, [10]⟩, ⟨1, [11]⟩, ⟨2, [12]⟩, ⟨3, [13]⟩]⟩ : Frame).cols ∧
      te.cols = (⟨["v"], [⟨0, [10]⟩, ⟨1, [11]⟩, ⟨2, [12]⟩, ⟨3, [13]⟩]⟩ : Frame).cols ∧
      tr.rows ++ te.rows
        = (⟨["v"], [⟨0, [10]⟩, ⟨1, [11]⟩, ⟨2, [12]⟩, ⟨3, [13]⟩]⟩ : Frame).rows :=
  split_recombination ⟨["v"], [⟨0, [10]⟩, ⟨1, [11]⟩, ⟨2, [12]⟩, ⟨3, [13]⟩]⟩
    [⟨0, 1⟩] ⟨2, 5⟩ (by decide) (by decide) (by decide) (by decide)

end ThesisApi
